import Mathlib

/-!
Verification of the agri-price-tracker feature-engineering and forecasting
pipeline against its natural-language specification.

The development shallowly embeds the two relevant source files:

* `train-model.py` — the training pipeline (merge/dedup, feature
  engineering with pandas `shift`/`rolling`, `TimeSeriesSplit` validation,
  sequential artifact persistence);
* `model-fastApi/app.py` — the inference service (`get_features_and_price`,
  `predict_price`, the demo-guard clamping logic).

Modelling conventions:

* Floating-point numbers are idealised as exact rationals `ℚ`.  The
  transcendental helpers used by both sides (`np.sin`, `np.cos`) are
  abstracted as function parameters `sinF cosF : ℚ → ℚ` — both the
  training and the inference code call the very same library routine, so
  theorems relating the two sides quantify over a single shared function.
* `np.std` and pandas `rolling(..).std()` return square roots; we keep the
  (computable, rational) radicand — `listPopVar` for numpy's population
  variance, `listSampleVar` for pandas' ddof=1 sample variance — and apply
  `Real.sqrt` in theorem statements where the claim talks about the
  standard deviation itself.  `Real.sqrt` is strictly monotone on
  nonnegative arguments, so equality/inequality of the radicands settles
  equality/inequality of the standard deviations.
* Price series are chronologically ordered lists (oldest first), matching
  the `sort_values('Date')` performed by both sides before any feature is
  computed.
* The trained regressor together with the scaler and the
  reindex-to-feature-order step has no closed form; `predict_price`
  therefore takes an abstract `model : FeatureVec → ℚ` standing for
  `regressor ∘ scale ∘ reindex`.  Everything surrounding this opaque
  function is embedded from the source.
* The random jitter drawn by `random.uniform(-1.2, 1.2)` is passed in as
  an explicit parameter `jitter`, constrained by hypotheses where claims
  need its range.
-/

namespace AgriPrice

/-! ## Generic list helpers -/

/-- Python/numpy slice `xs[-n:]`: the last `min n (length xs)` elements. -/
def lastN {α : Type} (xs : List α) (n : ℕ) : List α :=
  xs.drop (xs.length - n)

/-- Mean of a list — `np.mean` (the callers guard against empty input). -/
def listMean (xs : List ℚ) : ℚ :=
  xs.sum / (xs.length : ℚ)

/-- Population variance — the radicand of `np.std` (ddof = 0). -/
def listPopVar (xs : List ℚ) : ℚ :=
  ((xs.map fun x => (x - listMean xs) ^ 2).sum) / (xs.length : ℚ)

/-- Sample variance — the radicand of pandas `.std()` (ddof = 1).
For a single observation pandas returns NaN; the training pipeline later
applies `.fillna(0)`, and `(… : ℚ) / 0 = 0` gives the same result here. -/
def listSampleVar (xs : List ℚ) : ℚ :=
  ((xs.map fun x => (x - listMean xs) ^ 2).sum) / ((xs.length : ℚ) - 1)

/-- Does `pat` occur at the head of `s`? -/
def charsStartWith : List Char → List Char → Bool
  | [], _ => true
  | _ :: _, [] => false
  | a :: as, b :: bs => a == b && charsStartWith as bs

/-- Substring test on character lists (Python's `in`, pandas
`str.contains` on a plain pattern). -/
def charsContain (pat : List Char) : List Char → Bool
  | [] => pat.isEmpty
  | c :: rest => charsStartWith pat (c :: rest) || charsContain pat rest

/-- Remove every occurrence of `pat` — Python `str.replace(pat, '')`. -/
def removeAll (pat : List Char) (s : List Char) : List Char :=
  if h : pat.isEmpty then s
  else
    match s with
    | [] => []
    | c :: rest =>
      if charsStartWith pat (c :: rest) then
        removeAll pat ((c :: rest).drop pat.length)
      else
        c :: removeAll pat rest
termination_by s.length
decreasing_by
  · simp only [List.length_drop]
    have : pat.length ≠ 0 := by
      intro hl
      exact h (by simpa [List.isEmpty_iff, List.length_eq_zero] using hl)
    simp only [List.length_cons]
    omega
  · simp

/-- Python `str.strip()` (both-ends whitespace trim). -/
def trimChars (s : List Char) : List Char :=
  ((s.dropWhile Char.isWhitespace).reverse.dropWhile Char.isWhitespace).reverse

/-- Case-insensitive substring test: `pandas str.contains(needle,
case=False)` / Python `needle in hay` after lowering. -/
def strContainsCI (hay : String) (needle : List Char) : Bool :=
  charsContain (needle.map Char.toLower) (hay.toList.map Char.toLower)

/-! ## Dates and the feature vector -/

/-- A calendar date, carrying exactly the calendar accessors both sides
read (`dt.year/month/isocalendar().week/dayofweek` in pandas,
`target_date.year/month/isocalendar()[1]/weekday()` in `app.py`; both
libraries agree on all four accessors, Monday = 0). -/
structure PDate where
  year : ℕ
  month : ℕ
  isoWeek : ℕ
  dayOfWeek : ℕ
deriving DecidableEq

/-- Harvest months — the domain constant `[1, 2, 7, 8]`. -/
def harvestMonths : List ℕ := [1, 2, 7, 8]

/-- Rainy months — the domain constant `[3, 4, 5, 10, 11, 12]`. -/
def rainyMonths : List ℕ := [3, 4, 5, 10, 11, 12]

/-- The named numeric features shared by training and inference.  The
`stdVar*` fields hold the radicand of the corresponding `std_*` feature
(see the header note); all other fields hold the feature value itself. -/
structure FeatureVec where
  year : ℚ
  month : ℚ
  quarter : ℚ
  week : ℚ
  dayofweek : ℚ
  month_sin : ℚ
  month_cos : ℚ
  is_harvest : ℚ
  is_rainy : ℚ
  lag1 : ℚ
  lag3 : ℚ
  lag7 : ℚ
  lag14 : ℚ
  lag21 : ℚ
  lag28 : ℚ
  lag30 : ℚ
  ma7 : ℚ
  ma14 : ℚ
  ma30 : ℚ
  stdVar7 : ℚ
  stdVar14 : ℚ
  stdVar30 : ℚ
  commodityEnc : ℚ
  marketEnc : ℚ
  countyEnc : ℚ
  unitEnc : ℚ
deriving DecidableEq

/-- The fixed lag set of `train-model.py` and `app.py`. -/
def lagSet : List ℕ := [1, 3, 7, 14, 21, 28, 30]

/-- The fixed rolling-window set of `train-model.py` and `app.py`. -/
def windowSet : List ℕ := [7, 14, 30]

/-! ## Training-side feature engineering (`train-model.py`,
`feature_engineering` lines 100–130 plus the `fillna(0)` of
`train_model` line 155).

`ps` is one entity's chronologically sorted retail-price series and `i`
the row position inside that series. -/

/-- `df.groupby(...)['Retail'].shift(lag)` at row `i`, after the
`fillna(0)` applied in `train_model`: the price `k` rows earlier in the
same group, `0` when fewer than `k` earlier rows exist. -/
def trainLag (ps : List ℚ) (i k : ℕ) : ℚ :=
  if k ≤ i then ps.getD (i - k) 0 else 0

/-- The trailing window `rolling(window=w, min_periods=1)` sees at row
`i`: the last at-most-`w` observations up to and including row `i`. -/
def rollWindow (ps : List ℚ) (i w : ℕ) : List ℚ :=
  lastN (ps.take (i + 1)) w

/-- `rolling(window=w, min_periods=1).mean()` at row `i`. -/
def trainMa (ps : List ℚ) (i w : ℕ) : ℚ :=
  listMean (rollWindow ps i w)

/-- Radicand of `rolling(window=w, min_periods=1).std()` at row `i`,
after `fillna(0)`: pandas uses ddof = 1 and yields NaN on a single
observation, which `fillna` turns into `0`. -/
def trainStdVar (ps : List ℚ) (i w : ℕ) : ℚ :=
  if 2 ≤ (rollWindow ps i w).length then listSampleVar (rollWindow ps i w) else 0

/-- The feature row built by `feature_engineering` for the row at
position `i` of entity series `ps`, dated `d`, with encoder output
`enc` (the four ordinal codes appended by `train_model`).
`quarter` is pandas `dt.quarter`, i.e. `(month - 1) // 3 + 1`. -/
def trainFeatureVec (sinF cosF : ℚ → ℚ) (d : PDate) (ps : List ℚ) (i : ℕ)
    (enc : ℚ × ℚ × ℚ × ℚ) : FeatureVec :=
  { year := d.year
    month := d.month
    quarter := (((d.month - 1) / 3 + 1 : ℕ) : ℚ)
    week := d.isoWeek
    dayofweek := d.dayOfWeek
    month_sin := sinF (2 * d.month / 12)
    month_cos := cosF (2 * d.month / 12)
    is_harvest := if d.month ∈ harvestMonths then 1 else 0
    is_rainy := if d.month ∈ rainyMonths then 1 else 0
    lag1 := trainLag ps i 1
    lag3 := trainLag ps i 3
    lag7 := trainLag ps i 7
    lag14 := trainLag ps i 14
    lag21 := trainLag ps i 21
    lag28 := trainLag ps i 28
    lag30 := trainLag ps i 30
    ma7 := trainMa ps i 7
    ma14 := trainMa ps i 14
    ma30 := trainMa ps i 30
    stdVar7 := trainStdVar ps i 7
    stdVar14 := trainStdVar ps i 14
    stdVar30 := trainStdVar ps i 30
    commodityEnc := enc.1
    marketEnc := enc.2.1
    countyEnc := enc.2.2.1
    unitEnc := enc.2.2.2 }

/-! ## Inference-side feature reconstruction (`app.py`,
`get_features_and_price` lines 137–212). -/

/-- Lag reconstruction, `app.py` lines 181–187: `prices[-lag]` when the
series has at least `lag` entries, else `prices[-1]` (the most recent
price) when non-empty, else `0.0`.  Total by construction — the Python
code indexes only under the corresponding guards and cannot raise. -/
def inferLag (prices : List ℚ) (k : ℕ) : ℚ :=
  if k ≤ prices.length then prices.getD (prices.length - k) 0
  else
    match prices.getLast? with
    | some p => p
    | none => 0

/-- Rolling mean reconstruction, `app.py` lines 189–197:
`np.mean(prices[-w:])`, `0.0` for an empty series. -/
def inferMa (prices : List ℚ) (w : ℕ) : ℚ :=
  if prices = [] then 0 else listMean (lastN prices w)

/-- Radicand of the rolling std reconstruction, `app.py` lines 189–197:
`np.std(prices[-w:])` (population variance) when the slice has more than
one element, else `0.0`. -/
def inferStdVar (prices : List ℚ) (w : ℕ) : ℚ :=
  if prices = [] then 0
  else if 1 < (lastN prices w).length then listPopVar (lastN prices w) else 0

/-- The feature dict built by `get_features_and_price` for target date
`d` over (already resolved) history `prices`, with encode result `enc`
(the `except` branch that fills `-1.0` sentinels is applied by the
caller `getFeaturesAndPrice`). -/
def inferFeatureVec (sinF cosF : ℚ → ℚ) (d : PDate) (prices : List ℚ)
    (enc : ℚ × ℚ × ℚ × ℚ) : FeatureVec :=
  { year := d.year
    month := d.month
    quarter := (((d.month - 1) / 3 + 1 : ℕ) : ℚ)
    week := d.isoWeek
    dayofweek := d.dayOfWeek
    month_sin := sinF (2 * d.month / 12)
    month_cos := cosF (2 * d.month / 12)
    is_harvest := if d.month ∈ harvestMonths then 1 else 0
    is_rainy := if d.month ∈ rainyMonths then 1 else 0
    lag1 := inferLag prices 1
    lag3 := inferLag prices 3
    lag7 := inferLag prices 7
    lag14 := inferLag prices 14
    lag21 := inferLag prices 21
    lag28 := inferLag prices 28
    lag30 := inferLag prices 30
    ma7 := inferMa prices 7
    ma14 := inferMa prices 14
    ma30 := inferMa prices 30
    stdVar7 := inferStdVar prices 7
    stdVar14 := inferStdVar prices 14
    stdVar30 := inferStdVar prices 30
    commodityEnc := enc.1
    marketEnc := enc.2.1
    countyEnc := enc.2.2.1
    unitEnc := enc.2.2.2 }

/-! ## Inference-service state and history resolution (`app.py`
lines 137–212, 227–246). -/

/-- One row of the recent-history extract `recent_prices.csv`
(`Date, Commodity, Market, County, Retail, Unit`); the date is its
ordinal after parsing. -/
structure HistRow where
  date : ℤ
  commodity : String
  market : String
  county : String
  retail : ℚ
  unit : String
deriving DecidableEq

/-- The three-level fallback match of `get_features_and_price`
lines 155–167: exact (commodity, market, county); then commodity plus
case-insensitive substring market match on
`market.replace(' Market', '').strip()`; then commodity + county. -/
def resolveHistory (h : List HistRow) (c m cty : String) : List HistRow :=
  let exactRows := h.filter fun r => r.commodity == c && r.market == m && r.county == cty
  if exactRows = [] then
    let ms := trimChars (removeAll (" Market".toList) m.toList)
    let subRows := h.filter fun r => r.commodity == c && strContainsCI r.market ms
    if subRows = [] then
      h.filter fun r => r.commodity == c && r.county == cty
    else subRows
  else exactRows

/-- Stable insertion by date (ascending), used to model
`subset.sort_values('Date')`. -/
def insertByDate (r : HistRow) : List HistRow → List HistRow
  | [] => [r]
  | s :: rest => if r.date < s.date then r :: s :: rest else s :: insertByDate r rest

/-- Sort rows by date ascending (`sort_values('Date')`). -/
def sortByDate : List HistRow → List HistRow
  | [] => []
  | r :: rest => insertByDate r (sortByDate rest)

/-- Resolution result before the client-price fallback, lines 152–173:
the last 40 retail prices (chronological) of the resolved subset and the
unit of its most recent row; `([], "kg")` when nothing matches or the
history extract is not loaded (`unit` is initialised to `'kg'`). -/
def resolvedData (hist : Option (List HistRow)) (c m cty : String) :
    List ℚ × String :=
  match hist with
  | none => ([], "kg")
  | some h =>
    let subset := resolveHistory h c m cty
    if subset = [] then ([], "kg")
    else
      let sorted := sortByDate subset
      (lastN (sorted.map (·.retail)) 40,
       ((sorted.getLast?).map (·.unit)).getD "kg")

/-- Lines 175–176: when resolution produced nothing and the client
supplied a (truthy, positive) `current_price`, synthesize a flat history
of ten copies of it. -/
def inferPrices (hist : Option (List HistRow)) (c m cty : String)
    (pp : Option ℚ) : List ℚ :=
  let ps := (resolvedData hist c m cty).1
  if ps = [] then
    match pp with
    | some p => if 0 < p then List.replicate 10 p else []
    | none => []
  else ps

/-- `extract_unit_api`, lines 52–56. -/
def extract_unit_api (name : String) : String :=
  if strContainsCI name "cow".toList || strContainsCI name "goat".toList
      || strContainsCI name "sheep".toList then "head"
  else if strContainsCI name "bag".toList then "bag"
  else "kg"

/-- Lines 178–179: the unit finally reported — the resolved unit, unless
the price series is still empty, in which case it is guessed from the
commodity name. -/
def inferUnit (hist : Option (List HistRow)) (c m cty : String)
    (pp : Option ℚ) : String :=
  if inferPrices hist c m cty pp = [] then extract_unit_api c
  else (resolvedData hist c m cty).2

/-- `get_features_and_price` (lines 137–212): returns the feature dict,
the resolved price series and the unit.  `encF` abstracts
`encoder.transform`; its `none` result models the `except` branch that
fills the four `-1.0` sentinels. -/
def getFeaturesAndPrice (sinF cosF : ℚ → ℚ) (hist : Option (List HistRow))
    (encF : String → String → String → String → Option (ℚ × ℚ × ℚ × ℚ))
    (d : PDate) (c m cty : String) (pp : Option ℚ) :
    FeatureVec × List ℚ × String :=
  let prices := inferPrices hist c m cty pp
  let unit := inferUnit hist c m cty pp
  let enc := (encF c m cty unit).getD (-1, -1, -1, -1)
  (inferFeatureVec sinF cosF d prices enc, prices, unit)

/-! ## The demo-guard post-processing and the predict endpoint
(`app.py` lines 227–300). -/

/-- `change = ((pred - current) / current) * 100`. -/
def rawChange (cp pv : ℚ) : ℚ :=
  (pv - cp) / cp * 100

/-- Lines 253–270: dampen a raw change above 15 % in magnitude to the
prediction `(pred + 3·current)/4`; if the dampened change still exceeds
20 % in magnitude, hard-clamp to a seed-determined `2 + seed` percent in
the raw direction, `seed = (len(commodity) + int(current_price)) % 7`. -/
def dampStep (cl : ℕ) (cp pv change : ℚ) : ℚ × ℚ :=
  let direction : ℚ := if 0 < change then 1 else -1
  let dampenedPred := (pv + 3 * cp) / 4
  let dampenedChange := rawChange cp dampenedPred
  if 20 < |dampenedChange| then
    let seed : ℕ := (cl + (Int.floor cp).toNat) % 7
    let safePct : ℚ := 2 + (seed : ℚ)
    (cp * (1 + direction * safePct / 100), direction * safePct)
  else (dampenedPred, dampenedChange)

/-- Lines 248–276: the full demo-guard block.  Returns the final
`(pred_val, change)` pair.  When `current_price ≤ 0` the guard leaves
the prediction untouched and the change is `0`; a post-guard change
below 0.1 % in magnitude is replaced by the random `jitter`
(`random.uniform(-1.2, 1.2)`, supplied as a parameter). -/
def demoGuard (cl : ℕ) (cp pv jitter : ℚ) : ℚ × ℚ :=
  if 0 < cp then
    let pc :=
      if 15 < |rawChange cp pv| then dampStep cl cp pv (rawChange cp pv)
      else (pv, rawChange cp pv)
    if |pc.2| < 1 / 10 then (cp * (1 + jitter / 100), jitter)
    else pc
  else (pv, 0)

/-- Lines 278–280: trend classification from the (unrounded) change. -/
def trendOf (change : ℚ) : String :=
  if 2 < change then "rising"
  else if change < -2 then "falling"
  else "stable"

/-- Round-half-even on an exact rational — Python's `round` (banker's
rounding), with the float representation idealised away. -/
def roundHalfEven (q : ℚ) : ℤ :=
  if q - (Int.floor q : ℚ) < 1 / 2 then Int.floor q
  else if 1 / 2 < q - (Int.floor q : ℚ) then Int.floor q + 1
  else if Int.floor q % 2 = 0 then Int.floor q else Int.floor q + 1

/-- Python `round(x, 2)`. -/
def pythonRound2 (q : ℚ) : ℚ :=
  ((roundHalfEven (q * 100) : ℤ) : ℚ) / 100

/-- The JSON body of `POST /predict`, `PredictionRequest` lines 45–50.
`daysAhead` defaults to 7; `currentPrice` is optional. -/
structure PredictionRequest where
  commodity : String
  market : String
  county : String
  daysAhead : ℤ := 7
  currentPrice : Option ℚ := none
deriving DecidableEq

/-- The response body of `POST /predict` (lines 285–296; the single
entry of `predictions` is inlined, its date string — always now + 7
days — is carried by the service clock and omitted here). -/
structure PredResponse where
  currentPrice : ℚ
  unit : String
  predictedPrice : ℚ
  changePercentage : ℚ
  trend : String
  recommendation : String
  confidence : ℚ
deriving DecidableEq

/-- `predict_price` (lines 227–300).  `model` abstracts the composition
reindex-to-feature-order ∘ scaler ∘ regressor applied to the feature
dict (lines 239–245); `none` models the unloaded-artifact state rejected
with HTTP 503 at line 229–230.  Nothing in the embedded body can raise,
so the generic `except → 500` handler has no successful-path effect. -/
def predictPrice (model : Option (FeatureVec → ℚ)) (sinF cosF : ℚ → ℚ)
    (hist : Option (List HistRow))
    (encF : String → String → String → String → Option (ℚ × ℚ × ℚ × ℚ))
    (d : PDate) (jitter : ℚ) (req : PredictionRequest) :
    Except ℕ PredResponse :=
  match model with
  | none => .error 503
  | some mdl =>
    let fhu := getFeaturesAndPrice sinF cosF hist encF d
      req.commodity req.market req.county req.currentPrice
    let history := fhu.2.1
    let currentPrice := (history.getLast?).getD (req.currentPrice.getD 0)
    let predVal := max 0 (mdl fhu.1)
    let pc := demoGuard req.commodity.length currentPrice predVal jitter
    let trend := trendOf pc.2
    let confidence : ℚ := if 14 ≤ history.length then 94 / 100 else 82 / 100
    .ok
      { currentPrice := pythonRound2 currentPrice
        unit := fhu.2.2
        predictedPrice := pythonRound2 pc.1
        changePercentage := pythonRound2 pc.2
        trend := trend
        recommendation := "Price expected to be " ++ trend
        confidence := confidence }

/-! ## Merge & dedup (`train-model.py`, `load_and_merge_data`
lines 51–80). -/

/-- One raw CSV row after date parsing (rows with unparseable dates are
dropped before deduplication and play no role in the dedup claim). -/
structure RawRow where
  date : ℤ
  commodity : String
  market : String
  county : String
  retail : ℚ
deriving DecidableEq

/-- The deduplication key `['Date', 'Commodity', 'Market', 'County']`. -/
def rowKey (r : RawRow) : ℤ × String × String × String :=
  (r.date, r.commodity, r.market, r.county)

/-- `drop_duplicates(subset=key, keep='last')`: keep, for every key, only
its last occurrence, preserving the relative order of kept rows. -/
def dedupKeepLast : List RawRow → List RawRow
  | [] => []
  | r :: rs =>
    if rs.any (fun s => decide (rowKey s = rowKey r)) then dedupKeepLast rs
    else r :: dedupKeepLast rs

/-! ## Artifact persistence (`train-model.py`, `save_artifacts`
lines 209–233 and the `__main__` driver lines 235–243). -/

/-- The four persisted artifact files, each represented by its current
content (an abstract value). -/
structure ArtifactStore where
  modelFile : ℕ
  scalerFile : ℕ
  encoderFile : ℕ
  metadataFile : ℕ
deriving DecidableEq

/-- Success/failure outcome of each pipeline stage and of each of the
four sequential artifact writes (`joblib.dump` ×3 then the metadata
`json.dump`).  A `false` stage raises before producing any effect; a
`false` write raises before replacing its file, aborting the writes
after it (the `except` clause of `__main__` only logs). -/
structure PipelineRun where
  mergeOk : Bool
  preprocessOk : Bool
  featuresOk : Bool
  trainOk : Bool
  writeModelOk : Bool
  writeScalerOk : Bool
  writeEncoderOk : Bool
  writeMetaOk : Bool
deriving DecidableEq

/-- `save_artifacts`: the four files are replaced one after the other,
in source order, each write failing independently and aborting the
rest. -/
def saveArtifacts (r : PipelineRun) (old new : ArtifactStore) : ArtifactStore :=
  if !r.writeModelOk then old
  else
    let s1 := { old with modelFile := new.modelFile }
    if !r.writeScalerOk then s1
    else
      let s2 := { s1 with scalerFile := new.scalerFile }
      if !r.writeEncoderOk then s2
      else
        let s3 := { s2 with encoderFile := new.encoderFile }
        if !r.writeMetaOk then s3
        else { s3 with metadataFile := new.metadataFile }

/-- The `__main__` driver: any failing stage aborts before
`save_artifacts` runs; otherwise the sequential writes happen. -/
def runPipeline (r : PipelineRun) (old new : ArtifactStore) : ArtifactStore :=
  if !r.mergeOk then old
  else if !r.preprocessOk then old
  else if !r.featuresOk then old
  else if !r.trainOk then old
  else saveArtifacts r old new

/-! ## Time-series cross-validation (`train-model.py`, `train_model`
lines 181–199; sklearn `TimeSeriesSplit(n_splits=5)` with default
`test_size = n // (n_splits + 1)` and `gap = 0`). -/

/-- The five (train, test) index-set pairs produced by
`TimeSeriesSplit(n_splits=5).split` on `n` date-sorted rows: fold `f`
trains on the initial segment `[0, start_f)` and tests on the contiguous
block `[start_f, start_f + testSize)`. -/
def tscvSplits (n : ℕ) : List (List ℕ × List ℕ) :=
  let testSize := n / 6
  (List.range 5).map fun f =>
    let start := n - 5 * testSize + f * testSize
    (List.range start, (List.range testSize).map (· + start))

/-! ## Helper lemmas -/

lemma lastN_length {α : Type} (xs : List α) (n : ℕ) :
    (lastN xs n).length = min n xs.length := by
  simp only [lastN, List.length_drop]
  omega

lemma lastN_suffix {α : Type} (xs : List α) (n : ℕ) : lastN xs n <:+ xs :=
  List.drop_suffix _ _

lemma lastN_eq_reverse_take {α : Type} (xs : List α) (n : ℕ) :
    lastN xs n = (xs.reverse.take n).reverse := by
  rw [List.reverse_take, List.reverse_reverse, List.length_reverse]
  rfl

lemma getLast?_cons_ne {α : Type} (a : α) (l : List α) (h : l ≠ []) :
    (a :: l).getLast? = l.getLast? := by
  cases l with
  | nil => exact absurd rfl h
  | cons b bs => exact List.getLast?_cons_cons

lemma mem_of_getLast?_eq {α : Type} {l : List α} {a : α} (h : l.getLast? = some a) :
    a ∈ l := by
  induction l with
  | nil => simp at h
  | cons b bs ih =>
    cases bs with
    | nil => simp_all
    | cons c cs =>
      rw [List.getLast?_cons_cons] at h
      exact List.mem_cons_of_mem b (ih h)

lemma getLast?_isSome_of_ne_nil {α : Type} {l : List α} (h : l ≠ []) :
    ∃ a, l.getLast? = some a := by
  cases hl : l.getLast? with
  | none => exact absurd (List.getLast?_eq_none_iff.mp hl) h
  | some a => exact ⟨a, rfl⟩

lemma roundHalfEven_le (q : ℚ) (B : ℤ) (h : q ≤ (B : ℚ)) : roundHalfEven q ≤ B := by
  have hfl : Int.floor q ≤ B := by
    have := Int.floor_le_floor h
    simpa using this
  rcases lt_or_eq_of_le hfl with hlt | heq
  · unfold roundHalfEven
    split_ifs <;> omega
  · have hq : q = (B : ℚ) := le_antisymm h (heq ▸ Int.floor_le q)
    subst hq
    unfold roundHalfEven
    rw [Int.floor_intCast]
    norm_num

lemma le_roundHalfEven (q : ℚ) (B : ℤ) (h : (B : ℚ) ≤ q) : B ≤ roundHalfEven q := by
  have hfl : B ≤ Int.floor q := Int.le_floor.mpr h
  unfold roundHalfEven
  split_ifs <;> omega

lemma pythonRound2_le (q : ℚ) (B : ℤ) (h : q ≤ (B : ℚ)) : pythonRound2 q ≤ (B : ℚ) := by
  unfold pythonRound2
  rw [div_le_iff₀ (by norm_num : (0:ℚ) < 100)]
  have : roundHalfEven (q * 100) ≤ B * 100 :=
    roundHalfEven_le _ _ (by push_cast; nlinarith)
  exact_mod_cast this

lemma le_pythonRound2 (q : ℚ) (B : ℤ) (h : (B : ℚ) ≤ q) : (B : ℚ) ≤ pythonRound2 q := by
  unfold pythonRound2
  rw [le_div_iff₀ (by norm_num : (0:ℚ) < 100)]
  have : B * 100 ≤ roundHalfEven (q * 100) :=
    le_roundHalfEven _ _ (by push_cast; nlinarith)
  exact_mod_cast this

/-! ## C2 — lag reconstruction at inference time -/

/-- C2 (amended): for every price series and lag `k` in the fixed lag
set, `lag_k` is the price `k` steps before the end in most-recent-first
order when at least `k` observations exist; on a non-empty but shorter
series it falls back to the MOST RECENT price (the head of the
reversed, most-recent-first series), not the oldest; on an empty series
it is `0.0`.  `inferLag` is a total function, so no input can raise. -/
theorem claim2_lag_reconstruction (prices : List ℚ) (k : ℕ) (hk : k ∈ lagSet) :
    (k ≤ prices.length → inferLag prices k = prices.reverse.getD (k - 1) 0) ∧
    (0 < prices.length → prices.length < k → inferLag prices k = prices.reverse.headD 0) ∧
    (prices = [] → inferLag prices k = 0) := by
  have hk1 : 1 ≤ k := by
    simp only [lagSet, List.mem_cons, List.not_mem_nil, or_false] at hk
    omega
  refine ⟨?_, ?_, ?_⟩
  · intro h
    rw [inferLag, if_pos h, List.getD_eq_getElem?_getD, List.getD_eq_getElem?_getD,
      List.getElem?_reverse (by omega)]
    have hidx : prices.length - 1 - (k - 1) = prices.length - k := by omega
    rw [hidx]
  · intro hpos hlt
    rw [inferLag, if_neg (by omega)]
    have hrev : prices.reverse.headD 0 = (prices.reverse.head?).getD 0 := by
      cases prices.reverse <;> rfl
    rw [hrev, List.head?_reverse]
    obtain ⟨p, hp⟩ := getLast?_isSome_of_ne_nil
      (fun hnil => by simp [hnil] at hpos : prices ≠ [])
    rw [hp]
    rfl
  · intro h
    subst h
    rw [inferLag, if_neg (by simp; omega)]
    rfl

/-- Witness for C2 at a concrete short series. -/
theorem claim2_witness :
    (3 ∈ lagSet ∧ 0 < ([100, 110] : List ℚ).length ∧ ([100, 110] : List ℚ).length < 3) ∧
    inferLag [100, 110] 3 = ([100, 110] : List ℚ).reverse.headD 0 :=
  ⟨⟨by decide, by decide, by decide⟩,
    (claim2_lag_reconstruction [100, 110] 3 (by decide)).2.1 (by decide) (by decide)⟩

/-- C2 fails as stated: on the series `[100, 110]` (oldest first) with
`k = 3` the code returns the most recent price `110`, not the oldest
available price `100`. -/
theorem claim2_counterexample :
    inferLag [100, 110] 3 ≠ ([100, 110] : List ℚ).headD 0 := by
  decide

/-! ## C6 — rolling statistics -/

/-- C6 (amended): both builders take their rolling window from the most
recent at-most-`w` observations — a trailing suffix, never a centered
window — and `ma_w` is the mean of the most recent `min w length`
observations on both sides.  At inference `std_w` is the population
standard deviation of that window (`0.0` below 2 points): its radicand
is `listPopVar`.  (The training side deviates: see the
counterexample.) -/
theorem claim6_rolling_windows (prices : List ℚ) (w : ℕ) (hw : w ∈ windowSet)
    (hne : prices ≠ []) :
    (lastN prices w).length = min w prices.length ∧
    lastN prices w <:+ prices ∧
    inferMa prices w = listMean ((prices.reverse.take w).reverse) ∧
    (2 ≤ (lastN prices w).length →
      inferStdVar prices w = listPopVar ((prices.reverse.take w).reverse)) ∧
    ((lastN prices w).length ≤ 1 → inferStdVar prices w = 0) ∧
    (∀ i, trainMa prices i w = listMean (((prices.take (i + 1)).reverse.take w).reverse) ∧
      rollWindow prices i w <:+ prices.take (i + 1)) := by
  refine ⟨lastN_length prices w, lastN_suffix prices w, ?_, ?_, ?_, ?_⟩
  · rw [inferMa, if_neg hne, lastN_eq_reverse_take]
  · intro h2
    rw [inferStdVar, if_neg hne, if_pos (by omega : 1 < (lastN prices w).length),
      lastN_eq_reverse_take]
  · intro h1
    rw [inferStdVar, if_neg hne, if_neg (by omega : ¬ 1 < (lastN prices w).length)]
  · intro i
    exact ⟨by rw [trainMa, rollWindow, lastN_eq_reverse_take],
      lastN_suffix _ w⟩

/-- Witness for C6 on a concrete three-point series. -/
theorem claim6_witness :
    (7 ∈ windowSet ∧ ([100, 110, 120] : List ℚ) ≠ []) ∧
    inferMa [100, 110, 120] 7 =
      listMean ((([100, 110, 120] : List ℚ).reverse.take 7).reverse) :=
  ⟨⟨by decide, by decide⟩,
    (claim6_rolling_windows [100, 110, 120] 7 (by decide) (by decide)).2.2.1⟩

/-- C6 fails as stated for the training pipeline: pandas
`rolling(...).std()` uses the SAMPLE standard deviation (ddof = 1), not
the population one.  On the window `[100, 110]` the code's std is
`√50 ≈ 7.07` while the population std is `√25 = 5`. -/
theorem claim6_counterexample :
    Real.sqrt ((trainStdVar [100, 110] 1 7 : ℚ) : ℝ) ≠
      Real.sqrt ((listPopVar (rollWindow [100, 110] 1 7) : ℚ) : ℝ) := by
  have h1 : trainStdVar [100, 110] 1 7 = 50 := by
    norm_num [trainStdVar, rollWindow, lastN, listSampleVar, listMean]
  have h2 : listPopVar (rollWindow [100, 110] 1 7) = 25 := by
    norm_num [listPopVar, rollWindow, lastN, listMean]
  rw [h1, h2]
  intro h
  have h25 : Real.sqrt ((25 : ℚ) : ℝ) < Real.sqrt ((50 : ℚ) : ℝ) :=
    Real.sqrt_lt_sqrt (by norm_num) (by norm_num)
  rw [h] at h25
  exact lt_irrefl _ h25

/-! ## C9 — merge deduplication -/

lemma filter_cons_pos {α : Type} (p : α → Bool) (a : α) (l : List α) (h : p a = true) :
    (a :: l).filter p = a :: l.filter p := by
  simp [List.filter_cons, h]

lemma filter_cons_neg {α : Type} (p : α → Bool) (a : α) (l : List α) (h : p a = false) :
    (a :: l).filter p = l.filter p := by
  simp [List.filter_cons, h]

lemma dedupKeepLast_filter (rows : List RawRow) (k : ℤ × String × String × String) :
    (dedupKeepLast rows).filter (fun r => decide (rowKey r = k)) =
      ((rows.filter (fun r => decide (rowKey r = k))).getLast?).toList := by
  induction rows with
  | nil => rfl
  | cons r rs ih =>
    by_cases hdup : rs.any (fun s => decide (rowKey s = rowKey r))
    · rw [dedupKeepLast, if_pos hdup, ih]
      by_cases hk : rowKey r = k
      · have hne : rs.filter (fun r => decide (rowKey r = k)) ≠ [] := by
          rw [List.any_eq_true] at hdup
          obtain ⟨s, hs, hsk⟩ := hdup
          have hsk' : rowKey s = k := hk ▸ (of_decide_eq_true hsk)
          intro hnil
          have : s ∈ rs.filter (fun r => decide (rowKey r = k)) :=
            List.mem_filter.mpr ⟨hs, decide_eq_true hsk'⟩
          rw [hnil] at this
          simp at this
        rw [filter_cons_pos (fun r => decide (rowKey r = k)) r rs (by simp [hk]),
          getLast?_cons_ne _ _ hne]
      · rw [filter_cons_neg (fun r => decide (rowKey r = k)) r rs (by simp [hk])]
    · rw [dedupKeepLast, if_neg hdup]
      by_cases hk : rowKey r = k
      · have hfil : rs.filter (fun r => decide (rowKey r = k)) = [] := by
          rw [List.filter_eq_nil_iff]
          intro s hs hsk
          rw [List.any_eq_true] at hdup
          exact hdup ⟨s, hs, decide_eq_true (hk ▸ of_decide_eq_true hsk)⟩
        rw [filter_cons_pos (fun r => decide (rowKey r = k)) r (dedupKeepLast rs)
            (by simp [hk]),
          filter_cons_pos (fun r => decide (rowKey r = k)) r rs (by simp [hk]),
          ih, hfil]
        rfl
      · rw [filter_cons_neg (fun r => decide (rowKey r = k)) r (dedupKeepLast rs)
            (by simp [hk]),
          filter_cons_neg (fun r => decide (rowKey r = k)) r rs (by simp [hk]), ih]

/-- C9: deduplicating the concatenation of two histories on the
`(date, commodity, market, county)` key keeps, for a key occurring at
least twice, exactly one row — the last occurrence in concatenation
order ("last write wins") — and when the key occurs in the
later-supplied history the survivor comes from that history. -/
theorem claim9_dedup_keep_last (h1 h2 : List RawRow)
    (k : ℤ × String × String × String)
    (hdup : 2 ≤ ((h1 ++ h2).filter (fun r => decide (rowKey r = k))).length) :
    ((dedupKeepLast (h1 ++ h2)).filter (fun r => decide (rowKey r = k))).length = 1 ∧
    (dedupKeepLast (h1 ++ h2)).filter (fun r => decide (rowKey r = k)) =
      ((h1 ++ h2).filter (fun r => decide (rowKey r = k))).getLast?.toList ∧
    ((∃ r ∈ h2, rowKey r = k) →
      ∀ s, ((h1 ++ h2).filter (fun r => decide (rowKey r = k))).getLast? = some s →
        s ∈ h2) := by
  have hmain := dedupKeepLast_filter (h1 ++ h2) k
  have hne : (h1 ++ h2).filter (fun r => decide (rowKey r = k)) ≠ [] := by
    intro hnil
    rw [hnil] at hdup
    simp at hdup
  obtain ⟨a, ha⟩ := getLast?_isSome_of_ne_nil hne
  refine ⟨?_, hmain, ?_⟩
  · rw [hmain, ha]
    rfl
  · intro ⟨r, hr, hrk⟩ s hs
    rw [List.filter_append] at hs
    have hne2 : h2.filter (fun r => decide (rowKey r = k)) ≠ [] := by
      intro hnil
      have : r ∈ h2.filter (fun r => decide (rowKey r = k)) :=
        List.mem_filter.mpr ⟨hr, decide_eq_true hrk⟩
      rw [hnil] at this
      simp at this
    rw [List.getLast?_append_of_ne_nil _ hne2] at hs
    exact List.mem_of_mem_filter (mem_of_getLast?_eq hs)

/-- Witness for C9: two histories overlapping on one key. -/
theorem claim9_witness :
    (2 ≤ (([⟨0, "Maize", "Nairobi", "Nairobi", 100⟩] ++
        [⟨0, "Maize", "Nairobi", "Nairobi", 120⟩] : List RawRow).filter
          (fun r => decide (rowKey r = (0, "Maize", "Nairobi", "Nairobi")))).length) ∧
    ((dedupKeepLast ([⟨0, "Maize", "Nairobi", "Nairobi", 100⟩] ++
        [⟨0, "Maize", "Nairobi", "Nairobi", 120⟩]) ).filter
          (fun r => decide (rowKey r = (0, "Maize", "Nairobi", "Nairobi")))).length = 1 :=
  ⟨by decide,
    (claim9_dedup_keep_last [⟨0, "Maize", "Nairobi", "Nairobi", 100⟩]
      [⟨0, "Maize", "Nairobi", "Nairobi", 120⟩]
      (0, "Maize", "Nairobi", "Nairobi") (by decide)).1⟩

/-! ## C7 — forward-chaining time-series validation split -/

/-- C7: in the 5-fold `TimeSeriesSplit` over `n` date-sorted rows
(`n ≥ 6`, sklearn's validity condition), every training index precedes
every validation index of its fold — the folds are contiguous,
unshuffled blocks — so under the date-sortedness of the rows
(monotonicity of `date` in the row index) every training row is dated
at or before every validation row of the same fold. -/
theorem claim7_forward_chaining (n : ℕ) (hn : 6 ≤ n) (date : ℕ → ℤ)
    (hmono : Monotone date) (tr te : List ℕ) (hmem : (tr, te) ∈ tscvSplits n)
    (i j : ℕ) (hi : i ∈ tr) (hj : j ∈ te) :
    i < j ∧ date i ≤ date j := by
  simp only [tscvSplits, List.mem_map, List.mem_range] at hmem
  obtain ⟨f, hf5, heq⟩ := hmem
  rw [Prod.mk.injEq] at heq
  obtain ⟨htr, hte⟩ := heq
  subst htr
  subst hte
  have hi' : i < n - 5 * (n / 6) + f * (n / 6) := List.mem_range.mp hi
  obtain ⟨t, ht, htj⟩ := List.mem_map.mp hj
  have hj' : n - 5 * (n / 6) + f * (n / 6) ≤ j := by omega
  have hij : i < j := lt_of_lt_of_le hi' hj'
  exact ⟨hij, hmono (le_of_lt hij)⟩

/-- Witness for C7: twelve rows with dates equal to their index, first
fold, train index 1 against validation index 2. -/
theorem claim7_witness :
    (6 ≤ 12 ∧ Monotone (fun idx : ℕ => (idx : ℤ)) ∧
      ((List.range 2, [2, 3]) ∈ tscvSplits 12 ∧ 1 ∈ List.range 2 ∧ 2 ∈ ([2, 3] : List ℕ))) ∧
    (1 < 2 ∧ (fun idx : ℕ => (idx : ℤ)) 1 ≤ (fun idx : ℕ => (idx : ℤ)) 2) :=
  ⟨⟨by norm_num, fun _ _ hab => Int.ofNat_le.mpr hab, by decide, by decide, by decide⟩,
    claim7_forward_chaining 12 (by norm_num) (fun idx : ℕ => (idx : ℤ))
      (fun _ _ hab => Int.ofNat_le.mpr hab) (List.range 2) [2, 3] (by decide)
      1 2 (by decide) (by decide)⟩

/-! ## C5 — artifact persistence is not atomic -/

/-- C5 (amended): a failure in any stage BEFORE persistence (merge,
preprocessing, feature engineering, training) leaves all four artifact
files untouched, and a fully successful run replaces all four; but the
persistence step itself writes the files sequentially, so a failure
in the middle of `save_artifacts` leaves a mixed generation (see the
counterexample). -/
theorem claim5_pipeline_persistence :
    (∀ (r : PipelineRun) (old new : ArtifactStore),
      (r.mergeOk = false ∨ r.preprocessOk = false ∨ r.featuresOk = false ∨
        r.trainOk = false) →
      runPipeline r old new = old) ∧
    (∀ (r : PipelineRun) (old new : ArtifactStore),
      r.mergeOk = true → r.preprocessOk = true → r.featuresOk = true →
      r.trainOk = true → r.writeModelOk = true → r.writeScalerOk = true →
      r.writeEncoderOk = true → r.writeMetaOk = true →
      runPipeline r old new = new) := by
  constructor
  · intro r old new h
    obtain ⟨m, p, ft, t, w1, w2, w3, w4⟩ := r
    rcases h with h | h | h | h
    · subst h; simp [runPipeline]
    · subst h; cases m <;> simp [runPipeline]
    · subst h; cases m <;> cases p <;> simp [runPipeline]
    · subst h; cases m <;> cases p <;> cases ft <;> simp [runPipeline]
  · intro r old new h1 h2 h3 h4 h5 h6 h7 h8
    obtain ⟨m, p, ft, t, w1, w2, w3, w4⟩ := r
    obtain ⟨nm, ns, ne2, nmeta⟩ := new
    subst h1
    subst h2
    subst h3
    subst h4
    subst h5
    subst h6
    subst h7
    subst h8
    simp [runPipeline, saveArtifacts]

/-- Witness for C5: a run failing at feature engineering leaves the old
generation in place; a fully successful run installs the new one. -/
theorem claim5_witness :
    ((⟨true, true, false, true, true, true, true, true⟩ : PipelineRun).featuresOk = false ∧
      runPipeline ⟨true, true, false, true, true, true, true, true⟩
        ⟨0, 0, 0, 0⟩ ⟨1, 1, 1, 1⟩ = ⟨0, 0, 0, 0⟩) ∧
    runPipeline ⟨true, true, true, true, true, true, true, true⟩
      ⟨0, 0, 0, 0⟩ ⟨1, 1, 1, 1⟩ = ⟨1, 1, 1, 1⟩ :=
  ⟨⟨rfl, claim5_pipeline_persistence.1 _ _ _ (Or.inr (Or.inr (Or.inl rfl)))⟩,
    claim5_pipeline_persistence.2 _ _ _ rfl rfl rfl rfl rfl rfl rfl rfl⟩

/-- C5 fails as stated: when every stage succeeds but the second
artifact write (`joblib.dump` of the scaler) raises, the model file has
already been replaced by the new generation while the scaler, encoder
and metadata files keep the previous one — the four files are neither
all updated nor all left in force. -/
theorem claim5_counterexample :
    runPipeline ⟨true, true, true, true, true, false, true, true⟩
      ⟨0, 0, 0, 0⟩ ⟨1, 1, 1, 1⟩ = ⟨1, 0, 0, 0⟩ ∧
    (⟨1, 0, 0, 0⟩ : ArtifactStore) ≠ ⟨0, 0, 0, 0⟩ ∧
    (⟨1, 0, 0, 0⟩ : ArtifactStore) ≠ ⟨1, 1, 1, 1⟩ := by
  refine ⟨rfl, by decide, by decide⟩

/-! ## Demo-guard analysis (C8, C10) -/

lemma rawChange_damp (cp pv : ℚ) (h : cp ≠ 0) :
    rawChange cp ((pv + 3 * cp) / 4) = rawChange cp pv / 4 := by
  unfold rawChange
  field_simp
  ring

lemma seed_le_six (cl : ℕ) (cp : ℚ) :
    (((cl + (Int.floor cp).toNat) % 7 : ℕ) : ℚ) ≤ 6 := by
  have : (cl + (Int.floor cp).toNat) % 7 < 7 := Nat.mod_lt _ (by norm_num)
  exact_mod_cast Nat.le_of_lt_succ this

lemma demoGuard_of_nonpos (cl : ℕ) (cp pv j : ℚ) (hcp : ¬ 0 < cp) :
    demoGuard cl cp pv j = (pv, 0) := by
  simp only [demoGuard, if_neg hcp]

lemma demoGuard_plain (cl : ℕ) (cp pv j : ℚ) (hcp : 0 < cp)
    (h15 : ¬ 15 < |rawChange cp pv|) (hsmall : ¬ |rawChange cp pv| < 1 / 10) :
    demoGuard cl cp pv j = (pv, rawChange cp pv) := by
  simp only [demoGuard, if_pos hcp, if_neg h15, if_neg hsmall]

lemma demoGuard_jitter (cl : ℕ) (cp pv j : ℚ) (hcp : 0 < cp)
    (h15 : ¬ 15 < |rawChange cp pv|) (hsmall : |rawChange cp pv| < 1 / 10) :
    demoGuard cl cp pv j = (cp * (1 + j / 100), j) := by
  simp only [demoGuard, if_pos hcp, if_neg h15, if_pos hsmall]

lemma demoGuard_damp (cl : ℕ) (cp pv j : ℚ) (hcp : 0 < cp)
    (h15 : 15 < |rawChange cp pv|) (h20 : ¬ 20 < |rawChange cp pv / 4|) :
    demoGuard cl cp pv j = ((pv + 3 * cp) / 4, rawChange cp pv / 4) := by
  have hstep : dampStep cl cp pv (rawChange cp pv) =
      ((pv + 3 * cp) / 4, rawChange cp pv / 4) := by
    simp only [dampStep, rawChange_damp cp pv (ne_of_gt hcp), if_neg h20]
  have hbig : ¬ |rawChange cp pv / 4| < 1 / 10 := by
    rw [abs_div]
    rw [abs_div] at h20
    intro hlt
    have : |rawChange cp pv| < 2 / 5 := by
      rw [abs_of_pos (by norm_num : (0:ℚ) < 4)] at hlt
      linarith
    linarith
  simp only [demoGuard, if_pos hcp, if_pos h15, hstep, if_neg hbig]

lemma demoGuard_clamp (cl : ℕ) (cp pv j : ℚ) (hcp : 0 < cp)
    (h15 : 15 < |rawChange cp pv|) (h20 : 20 < |rawChange cp pv / 4|) :
    demoGuard cl cp pv j =
      (cp * (1 + (if 0 < rawChange cp pv then (1 : ℚ) else -1) *
          (2 + (((cl + (Int.floor cp).toNat) % 7 : ℕ) : ℚ)) / 100),
        (if 0 < rawChange cp pv then (1 : ℚ) else -1) *
          (2 + (((cl + (Int.floor cp).toNat) % 7 : ℕ) : ℚ))) := by
  have hstep : dampStep cl cp pv (rawChange cp pv) =
      (cp * (1 + (if 0 < rawChange cp pv then (1 : ℚ) else -1) *
          (2 + (((cl + (Int.floor cp).toNat) % 7 : ℕ) : ℚ)) / 100),
        (if 0 < rawChange cp pv then (1 : ℚ) else -1) *
          (2 + (((cl + (Int.floor cp).toNat) % 7 : ℕ) : ℚ))) := by
    simp only [dampStep, rawChange_damp cp pv (ne_of_gt hcp), if_pos h20]
  have habs : |(if 0 < rawChange cp pv then (1 : ℚ) else -1) *
      (2 + (((cl + (Int.floor cp).toNat) % 7 : ℕ) : ℚ))| =
      2 + (((cl + (Int.floor cp).toNat) % 7 : ℕ) : ℚ) := by
    have hpos : (0 : ℚ) ≤ 2 + (((cl + (Int.floor cp).toNat) % 7 : ℕ) : ℚ) := by
      positivity
    split_ifs <;> rw [abs_mul] <;> simp [abs_of_nonneg hpos]
  have hbig : ¬ |(if 0 < rawChange cp pv then (1 : ℚ) else -1) *
      (2 + (((cl + (Int.floor cp).toNat) % 7 : ℕ) : ℚ))| < 1 / 10 := by
    rw [habs]
    intro hlt
    have : (0 : ℚ) ≤ (((cl + (Int.floor cp).toNat) % 7 : ℕ) : ℚ) := by positivity
    linarith
  simp only [demoGuard, if_pos hcp, if_pos h15, hstep, if_neg hbig]

lemma demoGuard_abs_change_le (cl : ℕ) (cp pv j : ℚ) (hcp : 0 < cp)
    (hj1 : -(6 / 5) ≤ j) (hj2 : j ≤ 6 / 5) :
    |(demoGuard cl cp pv j).2| ≤ 20 := by
  by_cases h15 : 15 < |rawChange cp pv|
  · by_cases h20 : 20 < |rawChange cp pv / 4|
    · rw [demoGuard_clamp cl cp pv j hcp h15 h20]
      have hseed := seed_le_six cl cp
      have hpos : (0 : ℚ) ≤ 2 + (((cl + (Int.floor cp).toNat) % 7 : ℕ) : ℚ) := by
        positivity
      split_ifs <;> rw [abs_mul] <;> simp [abs_of_nonneg hpos] <;> linarith
    · rw [demoGuard_damp cl cp pv j hcp h15 h20]
      simpa using le_of_not_lt h20
  · by_cases hsmall : |rawChange cp pv| < 1 / 10
    · rw [demoGuard_jitter cl cp pv j hcp h15 hsmall]
      have : |j| ≤ 6 / 5 := abs_le.mpr ⟨by linarith, hj2⟩
      simp only []
      linarith [this]
    · rw [demoGuard_plain cl cp pv j hcp h15 hsmall]
      have : |rawChange cp pv| ≤ 15 := le_of_not_lt h15
      simp only []
      linarith

lemma demoGuard_pred_nonneg (cl : ℕ) (cp pv j : ℚ) (hpv : 0 ≤ pv)
    (hj1 : -(6 / 5) ≤ j) (hj2 : j ≤ 6 / 5) :
    0 ≤ (demoGuard cl cp pv j).1 := by
  by_cases hcp : 0 < cp
  · by_cases h15 : 15 < |rawChange cp pv|
    · by_cases h20 : 20 < |rawChange cp pv / 4|
      · rw [demoGuard_clamp cl cp pv j hcp h15 h20]
        have hseed := seed_le_six cl cp
        have hng : (0 : ℚ) ≤ (((cl + (Int.floor cp).toNat) % 7 : ℕ) : ℚ) := by
          positivity
        simp only []
        split_ifs <;> nlinarith
      · rw [demoGuard_damp cl cp pv j hcp h15 h20]
        simp only []
        linarith
    · by_cases hsmall : |rawChange cp pv| < 1 / 10
      · rw [demoGuard_jitter cl cp pv j hcp h15 hsmall]
        simp only []
        nlinarith
      · rw [demoGuard_plain cl cp pv j hcp h15 hsmall]
        exact hpv
  · rw [demoGuard_of_nonpos cl cp pv j hcp]
    exact hpv

lemma trendOf_rising (c : ℚ) : trendOf c = "rising" ↔ 2 < c := by
  unfold trendOf
  split_ifs with h1 h2
  · exact ⟨fun _ => h1, fun _ => rfl⟩
  · exact ⟨fun h => absurd h (by decide), fun h => absurd h h1⟩
  · exact ⟨fun h => absurd h (by decide), fun h => absurd h h1⟩

lemma trendOf_falling (c : ℚ) : trendOf c = "falling" ↔ c < -2 := by
  unfold trendOf
  split_ifs with h1 h2
  · exact ⟨fun h => absurd h (by decide), fun h => absurd (by linarith : (2:ℚ) < -2) (by norm_num)⟩
  · exact ⟨fun _ => h2, fun _ => rfl⟩
  · exact ⟨fun h => absurd h (by decide), fun h => absurd h h2⟩

lemma trendOf_stable (c : ℚ) : trendOf c = "stable" ↔ (-2 ≤ c ∧ c ≤ 2) := by
  unfold trendOf
  split_ifs with h1 h2
  · exact ⟨fun h => absurd h (by decide), fun h => absurd h1 (by linarith [h.2])⟩
  · exact ⟨fun h => absurd h (by decide), fun h => absurd h2 (by linarith [h.1])⟩
  · exact ⟨fun _ => ⟨by linarith, by linarith⟩, fun _ => rfl⟩

/-! ## C10 — the demo-guard clamping contract -/

/-- C10: with a strictly positive resolved `current_price` and a jitter
draw in `[-1.2, 1.2]`, the change percentage finally reported (after
Python's 2-decimal rounding) has magnitude at most 20; a raw change
above 15 % in magnitude is dampened to exactly one quarter with the
prediction recomputed as `current·(1 + change/100)`; a change still
above 20 % after dampening is replaced by a deterministic seed value of
magnitude between 2 and 8 with the prediction again recomputed
consistently; and a change below 0.1 % in magnitude is replaced by the
random jitter itself (hence the response in that branch varies with the
draw), with the prediction recomputed consistently. -/
theorem claim10_demo_guard_bounds (cl : ℕ) (cp pv j : ℚ) (hcp : 0 < cp)
    (hj1 : -(6 / 5) ≤ j) (hj2 : j ≤ 6 / 5) :
    |pythonRound2 (demoGuard cl cp pv j).2| ≤ 20 ∧
    (15 < |rawChange cp pv| → |rawChange cp pv / 4| ≤ 20 →
      demoGuard cl cp pv j = ((pv + 3 * cp) / 4, rawChange cp pv / 4) ∧
      (pv + 3 * cp) / 4 = cp * (1 + (rawChange cp pv / 4) / 100)) ∧
    (15 < |rawChange cp pv| → 20 < |rawChange cp pv / 4| →
      2 ≤ |(demoGuard cl cp pv j).2| ∧ |(demoGuard cl cp pv j).2| ≤ 8 ∧
      (demoGuard cl cp pv j).1 = cp * (1 + (demoGuard cl cp pv j).2 / 100)) ∧
    (¬ 15 < |rawChange cp pv| → |rawChange cp pv| < 1 / 10 →
      demoGuard cl cp pv j = (cp * (1 + j / 100), j)) := by
  have habs := demoGuard_abs_change_le cl cp pv j hcp hj1 hj2
  refine ⟨?_, ?_, ?_, ?_⟩
  · rw [abs_le]
    constructor
    · have := le_pythonRound2 (demoGuard cl cp pv j).2 (-20)
        (by push_cast; linarith [(abs_le.mp habs).1])
      push_cast at this
      linarith
    · have := pythonRound2_le (demoGuard cl cp pv j).2 20
        (by push_cast; linarith [(abs_le.mp habs).2])
      push_cast at this
      linarith
  · intro h15 h20
    rw [demoGuard_damp cl cp pv j hcp h15 (not_lt.mpr h20)]
    refine ⟨rfl, ?_⟩
    rw [rawChange]
    field_simp
    ring
  · intro h15 h20
    rw [demoGuard_clamp cl cp pv j hcp h15 h20]
    have hseed := seed_le_six cl cp
    have hng : (0 : ℚ) ≤ (((cl + (Int.floor cp).toNat) % 7 : ℕ) : ℚ) := by positivity
    have habs2 : |(if 0 < rawChange cp pv then (1 : ℚ) else -1) *
        (2 + (((cl + (Int.floor cp).toNat) % 7 : ℕ) : ℚ))| =
        2 + (((cl + (Int.floor cp).toNat) % 7 : ℕ) : ℚ) := by
      split_ifs <;> rw [abs_mul] <;> simp [abs_of_nonneg (by linarith :
        (0 : ℚ) ≤ 2 + (((cl + (Int.floor cp).toNat) % 7 : ℕ) : ℚ))]
    refine ⟨?_, ?_, by ring⟩
    · rw [habs2]
      linarith
    · rw [habs2]
      linarith
  · intro h15 hsmall
    exact demoGuard_jitter cl cp pv j hcp h15 hsmall

/-- Witness for C10 at `current_price = 100`, raw prediction `120`
(raw change 20 %, dampened to 5 %). -/
theorem claim10_witness :
    (0 < (100 : ℚ) ∧ -(6 / 5) ≤ (0 : ℚ) ∧ (0 : ℚ) ≤ 6 / 5) ∧
    |pythonRound2 (demoGuard 5 100 120 0).2| ≤ 20 :=
  ⟨⟨by norm_num, by norm_num, by norm_num⟩,
    (claim10_demo_guard_bounds 5 100 120 0 (by norm_num) (by norm_num) (by norm_num)).1⟩

/-! ## C8 — served responses: nonnegative price, trend vs change -/

lemma response_facts (cl : ℕ) (cp pv j : ℚ) (hpv : 0 ≤ pv)
    (hj1 : -(6 / 5) ≤ j) (hj2 : j ≤ 6 / 5) :
    0 ≤ pythonRound2 (demoGuard cl cp pv j).1 ∧
    (trendOf (demoGuard cl cp pv j).2 = "rising" ∨
      trendOf (demoGuard cl cp pv j).2 = "falling" ∨
      trendOf (demoGuard cl cp pv j).2 = "stable") ∧
    (trendOf (demoGuard cl cp pv j).2 = "rising" →
      2 ≤ pythonRound2 (demoGuard cl cp pv j).2) ∧
    (trendOf (demoGuard cl cp pv j).2 = "falling" →
      pythonRound2 (demoGuard cl cp pv j).2 ≤ -2) ∧
    (trendOf (demoGuard cl cp pv j).2 = "stable" →
      -2 ≤ pythonRound2 (demoGuard cl cp pv j).2 ∧
        pythonRound2 (demoGuard cl cp pv j).2 ≤ 2) := by
  refine ⟨?_, ?_, ?_, ?_, ?_⟩
  · have h0 := demoGuard_pred_nonneg cl cp pv j hpv hj1 hj2
    have := le_pythonRound2 (demoGuard cl cp pv j).1 0 (by push_cast; linarith)
    push_cast at this
    exact this
  · unfold trendOf
    split_ifs <;> simp
  · intro htr
    have hc := (trendOf_rising _).mp htr
    have := le_pythonRound2 (demoGuard cl cp pv j).2 2 (by push_cast; linarith)
    push_cast at this
    exact this
  · intro htr
    have hc := (trendOf_falling _).mp htr
    have := pythonRound2_le (demoGuard cl cp pv j).2 (-2) (by push_cast; linarith)
    push_cast at this
    exact this
  · intro htr
    obtain ⟨hc1, hc2⟩ := (trendOf_stable _).mp htr
    constructor
    · have := le_pythonRound2 (demoGuard cl cp pv j).2 (-2) (by push_cast; linarith)
      push_cast at this
      exact this
    · have := pythonRound2_le (demoGuard cl cp pv j).2 2 (by push_cast; linarith)
      push_cast at this
      exact this

/-- C8 (amended): every served response has `predicted_price ≥ 0` and a
trend in `{rising, falling, stable}`; the trend is decided by the
UNROUNDED internal change (`rising` iff it exceeds 2, etc.) while the
reported `change_percentage` is that change rounded to two decimals, so
the served fields only satisfy the one-sided bounds
`rising → change_percentage ≥ 2`, `falling → change_percentage ≤ -2`,
`stable → change_percentage ∈ [-2, 2]`; the strict two-sided
equivalence of the claim fails at rounding boundaries. -/
theorem claim8_served_response (mdl : FeatureVec → ℚ) (sinF cosF : ℚ → ℚ)
    (hist : Option (List HistRow))
    (encF : String → String → String → String → Option (ℚ × ℚ × ℚ × ℚ))
    (d : PDate) (j : ℚ) (req : PredictionRequest) (r : PredResponse)
    (hj1 : -(6 / 5) ≤ j) (hj2 : j ≤ 6 / 5)
    (h : predictPrice (some mdl) sinF cosF hist encF d j req = .ok r) :
    0 ≤ r.predictedPrice ∧
    (r.trend = "rising" ∨ r.trend = "falling" ∨ r.trend = "stable") ∧
    (r.trend = "rising" → 2 ≤ r.changePercentage) ∧
    (r.trend = "falling" → r.changePercentage ≤ -2) ∧
    (r.trend = "stable" → -2 ≤ r.changePercentage ∧ r.changePercentage ≤ 2) := by
  simp only [predictPrice] at h
  injection h with h
  subst h
  exact response_facts _ _ _ _ (le_max_left _ _) hj1 hj2

/-- Witness for C8: a served request over one history row priced 100
with raw prediction 120 yields predicted price 105 ≥ 0, trend rising. -/
theorem claim8_witness :
    (-(6 / 5) ≤ (0 : ℚ) ∧ (0 : ℚ) ≤ 6 / 5 ∧
      predictPrice (some (fun _ => 120)) (fun _ => 0) (fun _ => 0)
        (some [⟨0, "Maize", "Mombasa", "Mombasa", 100, "kg"⟩]) (fun _ _ _ _ => none)
        ⟨2025, 4, 15, 1⟩ 0 ⟨"Maize", "Mombasa", "Mombasa", 7, none⟩ =
      .ok ⟨100, "kg", 105, 5, "rising", "Price expected to be rising", 82 / 100⟩) ∧
    0 ≤ (⟨100, "kg", 105, 5, "rising", "Price expected to be rising", 82 / 100⟩ :
      PredResponse).predictedPrice := by
  have heval : predictPrice (some (fun _ => 120)) (fun _ => 0) (fun _ => 0)
      (some [⟨0, "Maize", "Mombasa", "Mombasa", 100, "kg"⟩]) (fun _ _ _ _ => none)
      ⟨2025, 4, 15, 1⟩ 0 ⟨"Maize", "Mombasa", "Mombasa", 7, none⟩ =
      .ok ⟨100, "kg", 105, 5, "rising", "Price expected to be rising", 82 / 100⟩ := by
    simp [predictPrice, getFeaturesAndPrice, inferPrices, inferUnit, resolvedData,
      resolveHistory, strContainsCI, charsContain, charsStartWith, removeAll, trimChars,
      extract_unit_api, sortByDate, insertByDate, lastN, demoGuard, dampStep, rawChange,
      trendOf, pythonRound2, roundHalfEven]
    norm_num [abs_of_pos, Int.fract]
    rfl
  exact ⟨⟨by norm_num, by norm_num, heval⟩,
    (claim8_served_response (fun _ => 120) (fun _ => 0) (fun _ => 0)
      (some [⟨0, "Maize", "Mombasa", "Mombasa", 100, "kg"⟩]) (fun _ _ _ _ => none)
      ⟨2025, 4, 15, 1⟩ 0 ⟨"Maize", "Mombasa", "Mombasa", 7, none⟩ _
      (by norm_num) (by norm_num) heval).1⟩

/-- C8 fails as stated: with a raw model change of 2.001 % the trend is
"rising" (decided on the unrounded change) while the served
`change_percentage` rounds to exactly 2, which is NOT greater than 2 —
so "trend is rising exactly when change_percentage > +2" is violated by
the served fields. -/
theorem claim8_counterexample :
    predictPrice (some (fun _ => 102001 / 1000)) (fun _ => 0) (fun _ => 0)
        (some [⟨0, "Maize", "Nairobi", "Nairobi", 100, "kg"⟩]) (fun _ _ _ _ => none)
        ⟨2025, 1, 2, 3⟩ 0 ⟨"Maize", "Nairobi", "Nairobi", 7, none⟩ =
      .ok ⟨100, "kg", 102, 2, "rising", "Price expected to be rising", 82 / 100⟩ ∧
    ¬ ((2 : ℚ) > 2) := by
  constructor
  · simp [predictPrice, getFeaturesAndPrice, inferPrices, inferUnit, resolvedData,
      resolveHistory, strContainsCI, charsContain, charsStartWith, removeAll, trimChars,
      extract_unit_api, sortByDate, insertByDate, lastN, demoGuard, dampStep, rawChange,
      trendOf, pythonRound2, roundHalfEven]
    norm_num [abs_of_pos, Int.fract]
    rfl
  · norm_num

/-! ## C4 — `days_ahead` is accepted but ignored -/

/-- C4 (amended): `predict_price` never reads `days_ahead`: two requests
differing only in that field produce identical results — no request is
rejected for a mismatched horizon, and every response is the fixed
7-day-ahead prediction.  (The claimed rejection does not exist: see the
counterexample, where `days_ahead = 3` is served.) -/
theorem claim4_days_ahead_ignored (model : Option (FeatureVec → ℚ))
    (sinF cosF : ℚ → ℚ) (hist : Option (List HistRow))
    (encF : String → String → String → String → Option (ℚ × ℚ × ℚ × ℚ))
    (d : PDate) (j : ℚ) (c m cty : String) (cp : Option ℚ) (a b : ℤ) :
    predictPrice model sinF cosF hist encF d j ⟨c, m, cty, a, cp⟩ =
      predictPrice model sinF cosF hist encF d j ⟨c, m, cty, b, cp⟩ := rfl

/-- C4 fails as stated: a request with `days_ahead = 3 ≠ 7` is fully
served with a numeric prediction instead of being rejected. -/
theorem claim4_counterexample :
    (3 : ℤ) ≠ 7 ∧
    predictPrice (some (fun _ => 120)) (fun _ => 0) (fun _ => 0)
        (some [⟨0, "Maize", "Nairobi", "Nairobi", 100, "kg"⟩]) (fun _ _ _ _ => none)
        ⟨2025, 1, 2, 3⟩ 0 ⟨"Maize", "Nairobi", "Nairobi", 3, none⟩ =
      .ok ⟨100, "kg", 105, 5, "rising", "Price expected to be rising", 82 / 100⟩ := by
  constructor
  · norm_num
  · simp [predictPrice, getFeaturesAndPrice, inferPrices, inferUnit, resolvedData,
      resolveHistory, strContainsCI, charsContain, charsStartWith, removeAll, trimChars,
      extract_unit_api, sortByDate, insertByDate, lastN, demoGuard, dampStep, rawChange,
      trendOf, pythonRound2, roundHalfEven]
    norm_num [abs_of_pos, Int.fract]
    rfl

/-! ## C3 — zero history and no client price: request is still served -/

lemma getFeaturesAndPrice_prices (sinF cosF : ℚ → ℚ) (hist : Option (List HistRow))
    (encF : String → String → String → String → Option (ℚ × ℚ × ℚ × ℚ))
    (d : PDate) (c m cty : String) (pp : Option ℚ) :
    (getFeaturesAndPrice sinF cosF hist encF d c m cty pp).2.1 =
      inferPrices hist c m cty pp := rfl

/-- C3 (amended): when all three fallback matching levels resolve to
zero history rows and the client supplied no `current_price`, `predict`
does NOT signal an error: it serves a 200 response whose
`current_price` is 0.0, whose change percentage is 0 with trend
"stable", and whose `predicted_price` is the (nonnegative, clamped)
output of the model on the all-fallback feature vector. -/
theorem claim3_no_history_still_served (mdl : FeatureVec → ℚ) (sinF cosF : ℚ → ℚ)
    (hist : Option (List HistRow))
    (encF : String → String → String → String → Option (ℚ × ℚ × ℚ × ℚ))
    (d : PDate) (j : ℚ) (req : PredictionRequest)
    (hnone : req.currentPrice = none)
    (hres : (resolvedData hist req.commodity req.market req.county).1 = []) :
    ∃ r, predictPrice (some mdl) sinF cosF hist encF d j req = .ok r ∧
      r.currentPrice = 0 ∧ r.changePercentage = 0 ∧ r.trend = "stable" ∧
      0 ≤ r.predictedPrice := by
  have hprices : inferPrices hist req.commodity req.market req.county req.currentPrice
      = [] := by
    rw [hnone]
    simp [inferPrices, hres]
  simp only [predictPrice]
  refine ⟨_, rfl, ?_, ?_, ?_, ?_⟩
  · rw [getFeaturesAndPrice_prices, hprices, hnone]
    norm_num [pythonRound2, roundHalfEven]
  · rw [getFeaturesAndPrice_prices, hprices, hnone]
    simp only [List.getLast?_nil, Option.getD_none]
    rw [demoGuard_of_nonpos _ _ _ _ (by norm_num)]
    norm_num [pythonRound2, roundHalfEven]
  · rw [getFeaturesAndPrice_prices, hprices, hnone]
    simp only [List.getLast?_nil, Option.getD_none]
    rw [demoGuard_of_nonpos _ _ _ _ (by norm_num)]
    norm_num [trendOf]
  · rw [getFeaturesAndPrice_prices, hprices, hnone]
    simp only [List.getLast?_nil, Option.getD_none]
    rw [demoGuard_of_nonpos _ _ _ _ (by norm_num)]
    have := le_pythonRound2 (max 0 (mdl (getFeaturesAndPrice sinF cosF hist encF d
      req.commodity req.market req.county none).1)) 0
      (by push_cast; exact le_max_left _ _)
    push_cast at this
    simpa using this

/-- Witness for C3: a loaded model, a history extract that matches none
of the three fallback levels, and no client price. -/
theorem claim3_witness :
    ((⟨"Maize", "Kisumu", "Kisumu", 7, none⟩ : PredictionRequest).currentPrice = none ∧
      (resolvedData (some [⟨0, "Beans", "Eldoret", "UasinGishu", 80, "kg"⟩])
        "Maize" "Kisumu" "Kisumu").1 = []) ∧
    (∃ r, predictPrice (some (fun _ => 50)) (fun _ => 0) (fun _ => 0)
        (some [⟨0, "Beans", "Eldoret", "UasinGishu", 80, "kg"⟩]) (fun _ _ _ _ => none)
        ⟨2025, 6, 23, 0⟩ 0 ⟨"Maize", "Kisumu", "Kisumu", 7, none⟩ = .ok r ∧
      r.currentPrice = 0 ∧ r.changePercentage = 0 ∧ r.trend = "stable" ∧
      0 ≤ r.predictedPrice) :=
  ⟨⟨rfl, by decide⟩,
    claim3_no_history_still_served (fun _ => 50) (fun _ => 0) (fun _ => 0)
      (some [⟨0, "Beans", "Eldoret", "UasinGishu", 80, "kg"⟩]) (fun _ _ _ _ => none)
      ⟨2025, 6, 23, 0⟩ 0 ⟨"Maize", "Kisumu", "Kisumu", 7, none⟩ rfl (by decide)⟩

/-- C3 fails as stated: with zero resolvable history and no client
price the endpoint returns HTTP 200 with the numeric prediction 50.0
(current_price 0.0), not a DataUnavailable 4xx. -/
theorem claim3_counterexample :
    predictPrice (some (fun _ => 50)) (fun _ => 0) (fun _ => 0)
        (some [⟨0, "Beans", "Eldoret", "UasinGishu", 80, "kg"⟩]) (fun _ _ _ _ => none)
        ⟨2025, 6, 23, 0⟩ 0 ⟨"Maize", "Kisumu", "Kisumu", 7, none⟩ =
      .ok ⟨0, "kg", 50, 0, "stable", "Price expected to be stable", 82 / 100⟩ := by
  simp [predictPrice, getFeaturesAndPrice, inferPrices, inferUnit, resolvedData,
    resolveHistory, strContainsCI, charsContain, charsStartWith, removeAll, trimChars,
    extract_unit_api, sortByDate, insertByDate, lastN, demoGuard, dampStep, rawChange,
    trendOf, pythonRound2, roundHalfEven]
  norm_num [Int.fract]
  rfl

/-! ## C1 — training vs inference feature round-trip -/

/-- C1 (amended): the temporal, cyclical and seasonal features are built
by identical formulas on both sides (they agree for every date and any
shared `sin`/`cos` implementation), and the lag features agree whenever
the training row has at least `k` earlier observations, taking the
inference snapshot to be the observations strictly before the row; but
the full FeatureVector round-trip fails — the two sides use different
lag fallbacks and different rolling-window conventions (see the
counterexample). -/
theorem claim1_feature_roundtrip :
    (∀ (sinF cosF : ℚ → ℚ) (d : PDate) (ps : List ℚ) (i : ℕ) (e : ℚ × ℚ × ℚ × ℚ)
        (qs : List ℚ) (e2 : ℚ × ℚ × ℚ × ℚ),
      (trainFeatureVec sinF cosF d ps i e).year = (inferFeatureVec sinF cosF d qs e2).year ∧
      (trainFeatureVec sinF cosF d ps i e).month = (inferFeatureVec sinF cosF d qs e2).month ∧
      (trainFeatureVec sinF cosF d ps i e).quarter =
        (inferFeatureVec sinF cosF d qs e2).quarter ∧
      (trainFeatureVec sinF cosF d ps i e).week = (inferFeatureVec sinF cosF d qs e2).week ∧
      (trainFeatureVec sinF cosF d ps i e).dayofweek =
        (inferFeatureVec sinF cosF d qs e2).dayofweek ∧
      (trainFeatureVec sinF cosF d ps i e).month_sin =
        (inferFeatureVec sinF cosF d qs e2).month_sin ∧
      (trainFeatureVec sinF cosF d ps i e).month_cos =
        (inferFeatureVec sinF cosF d qs e2).month_cos ∧
      (trainFeatureVec sinF cosF d ps i e).is_harvest =
        (inferFeatureVec sinF cosF d qs e2).is_harvest ∧
      (trainFeatureVec sinF cosF d ps i e).is_rainy =
        (inferFeatureVec sinF cosF d qs e2).is_rainy) ∧
    (∀ (ps : List ℚ) (i k : ℕ), 1 ≤ k → k ≤ i → i ≤ ps.length →
      trainLag ps i k = inferLag (ps.take i) k) := by
  constructor
  · intro sinF cosF d ps i e qs e2
    exact ⟨rfl, rfl, rfl, rfl, rfl, rfl, rfl, rfl, rfl⟩
  · intro ps i k hk1 hki hlen
    have hlen' : (ps.take i).length = i := by
      rw [List.length_take]
      omega
    rw [trainLag, if_pos hki, inferLag, if_pos (by rw [hlen']; exact hki), hlen',
      List.getD_eq_getElem?_getD, List.getD_eq_getElem?_getD, List.getElem?_take,
      if_pos (by omega : i - k < i)]

/-- Witness for C1's lag agreement on a three-point series. -/
theorem claim1_witness :
    (1 ≤ 1 ∧ 1 ≤ 2 ∧ 2 ≤ ([100, 110, 120] : List ℚ).length) ∧
    trainLag [100, 110, 120] 2 1 = inferLag (([100, 110, 120] : List ℚ).take 2) 1 :=
  ⟨⟨le_refl 1, by norm_num, by norm_num⟩,
    claim1_feature_roundtrip.2 [100, 110, 120] 2 1 (by norm_num) (by norm_num)
      (by norm_num)⟩

/-- C1 fails as stated: for the entity series `[100, 110]` at row 1
(history snapshot `[100]`, the observations before that row), the
training pipeline's `lag_3` is the `fillna(0)` value `0.0` while the
inference reconstruction falls back to the snapshot's most recent price
`100.0`, so the two FeatureVectors differ. -/
theorem claim1_counterexample :
    trainFeatureVec (fun _ => 0) (fun _ => 0) ⟨2025, 3, 12, 4⟩ [100, 110] 1
        (-1, -1, -1, -1) ≠
      inferFeatureVec (fun _ => 0) (fun _ => 0) ⟨2025, 3, 12, 4⟩
        (([100, 110] : List ℚ).take 1) (-1, -1, -1, -1) := by
  intro h
  exact absurd (congrArg FeatureVec.lag3 h) (by decide)

end AgriPrice
